import Mathlib

/-!
Verification of the command-execution core of `mcp-golang` (src/tools/goTools.ts):
the path validator `isAbsolutePath`, the error builder `createWdError`, the
command executor `executeGoCommand` (Windows path rewriting, synchronous
execution with asynchronous fallback, output normalization) and the sequential
orchestrator `executeSequentialGoCommands`, together with the per-tool handlers
registered by `registerGoTools`.

External process execution is modelled by an environment (`ExecEnv`) that fixes
the outcome of the synchronous attempt and of the asynchronous fallback for each
call; process spawns are tracked explicitly so that spawn-count properties can
be stated.  JavaScript string truthiness (`a || b`) is modelled by `jsOr`.
-/

/-- JavaScript `a || b` on strings: the empty string is falsy. -/
def jsOr (a b : String) : String := if a = "" then b else a

/-- `workingDir.replace(/\//g, '\\')`: every forward slash becomes a backslash. -/
def toBackslashes (s : String) : String := ⟨s.data.map (fun c => if c = '/' then '\\' else c)⟩

/-- `s.startsWith(p)`, computed on the underlying character lists. -/
def startsWithStr (s p : String) : Bool := decide (s.data.take p.data.length = p.data)

/-- Drop the first `n` characters of a string. -/
def dropStr (s : String) (n : Nat) : String := ⟨s.data.drop n⟩

/-- JavaScript `s.charAt(0)` (as a one-character string; empty on the empty string). -/
def firstCharStr (s : String) : String := ⟨s.data.take 1⟩

/-- `s.replace(/^pre/, sub)`: an anchored regex replace of the literal prefix `pre`. -/
def replaceAnchored (s pre sub : String) : String :=
  if startsWithStr s pre then sub ++ dropStr s pre.data.length else s

/-- JavaScript `s.repeat(n)`. -/
def jsRepeat (s : String) (n : Nat) : String := String.join (List.replicate n s)

/-- One `{ type: 'text', text }` content item. -/
structure TextContent where
  type : String
  text : String
deriving DecidableEq

/-- The `{ content, isError? }` result shape returned by every tool path.
`isError = none` models the property being absent (unset). -/
structure ToolResult where
  content : List TextContent
  isError : Option Bool
deriving DecidableEq

/-- `result.content[0].text`. -/
def headText (r : ToolResult) : String := (r.content.headD ⟨"text", ""⟩).text

/-- A JavaScript error value as observed by the `catch` blocks. -/
inductive JsError where
  /-- an `Error` carrying captured `stdout`/`stderr` properties (exec failure). -/
  | withOutput (stdout stderr message : String)
  /-- an `Error` without a `stdout` property. -/
  | plain (message : String)
  /-- a thrown non-`Error` value, recorded by its `String(error)` form. -/
  | nonError (repr : String)
deriving DecidableEq

/-- JavaScript `String(error)`. -/
def JsError.stringForm : JsError → String
  | .withOutput _ _ m => if m = "" then ("Error") else ("Error: ") ++ m
  | .plain m => if m = "" then ("Error") else ("Error: ") ++ m
  | .nonError r => r

/-- JavaScript `error instanceof Error ? error.message : String(error)`. -/
def JsError.messageForm : JsError → String
  | .withOutput _ _ m => m
  | .plain m => m
  | .nonError r => r

/-- Outcome of one attempted process execution: exit zero with the process's
stdout and stderr, or a raised/rejected error. -/
inductive ExecOutcome where
  | ok (stdout stderr : String)
  | err (e : JsError)
deriving DecidableEq

/-- The external world for one `executeGoCommand` call: what `execSync` would do,
and what `execAsync` would do if attempted. -/
structure ExecEnv where
  sync : ExecOutcome
  async : ExecOutcome
deriving DecidableEq

/-- `process.platform === 'win32'` or not. -/
inductive OsFamily where
  | win32
  | other
deriving DecidableEq

/-- Which execution primitive spawned a process. -/
inductive Strategy where
  | sync
  | async
deriving DecidableEq

/-- A record of one spawned OS process: the strategy, the command string handed
to it, and the `cwd` option passed (none on win32, where `cd` prefixes are used). -/
structure Spawn where
  strategy : Strategy
  command : String
  cwd : Option String
deriving DecidableEq

/-- The `finalCommand` computed by `executeGoCommand` before execution:
on win32, forward slashes are translated, a `\s\…` prefix is rewritten to
`s:\…` and folded into a `cd /d` prefix; elsewhere the command is unchanged. -/
def mkFinalCommand (platform : OsFamily) (command workingDir : String) : String :=
  match platform with
  | .win32 =>
    let windowsPath := toBackslashes workingDir
    if startsWithStr windowsPath ("\\s\\") then
      let converted := replaceAnchored windowsPath ("\\s\\") ("s:\\")
      let driveLetter := firstCharStr converted
      "cd /d " ++ driveLetter ++ ": && cd \"" ++ converted ++ "\" && " ++ command
    else
      "cd /d \"" ++ windowsPath ++ "\" && " ++ command
  | .other => command

/-- The `cwd` execution option passed to `execSync`/`execAsync`:
absent on win32 (a `cd` prefix is used instead), the working directory otherwise. -/
def cwdOption (platform : OsFamily) (workingDir : String) : Option String :=
  match platform with
  | .win32 => none
  | .other => some workingDir

/-- `executeGoCommand(command, workingDir, successMessage)`: try `execSync` on the
rewritten command; on a raised error fall back to one `execAsync` of the same
command; normalize output (`stdout || successMessage` synchronously,
`stdout || stderr || successMessage` asynchronously); convert a failure of both
strategies into an `isError: true` result built from the async error's captured
output, else a synthesized message.  Also returns the list of spawned processes. -/
def executeGoCommand (command workingDir successMessage : String)
    (platform : OsFamily) (env : ExecEnv) : ToolResult × List Spawn :=
  let finalCommand := mkFinalCommand platform command workingDir
  let syncSpawn : Spawn := ⟨.sync, finalCommand, cwdOption platform workingDir⟩
  match env.sync with
  | .ok stdout _ =>
    -- execSync returns the process's stdout only; on exit zero the result is
    -- `output || successMessage` and isError stays unset.
    (⟨[⟨"text", jsOr stdout successMessage⟩], none⟩, [syncSpawn])
  | .err _ =>
    let asyncSpawn : Spawn := ⟨.async, finalCommand, cwdOption platform workingDir⟩
    match env.async with
    | .ok stdout stderr =>
      (⟨[⟨"text", jsOr stdout (jsOr stderr successMessage)⟩], none⟩, [syncSpawn, asyncSpawn])
    | .err e =>
      let errorOutput :=
        match e with
        | .withOutput so se _ => jsOr so se
        | _ => e.stringForm
      (⟨[⟨"text", jsOr errorOutput ("Error running command: " ++ e.messageForm)⟩], some true⟩,
       [syncSpawn, asyncSpawn])

/-- A `{ command, successMessage }` pair consumed by the orchestrator. -/
structure CommandSpec where
  command : String
  successMessage : String
deriving DecidableEq

/-- `'\n\n' + '---'.repeat(10) + '\n\n'` without the surrounding newlines:
the fixed visual delimiter between labeled blocks. -/
def seqDelim : String := jsRepeat ("---") 10

/-- The loop body of `executeSequentialGoCommands`: fold over the commands,
appending a labeled block per step (with the delimiter between blocks),
OR-ing the error flags, and accumulating spawned processes. -/
def seqGo (platform : OsFamily) (workingDir : String) (envs : Nat → ExecEnv) :
    List CommandSpec → Nat → String → Bool → List Spawn → String × Bool × List Spawn
  | [], _, combinedOutput, hasError, spawns => (combinedOutput, hasError, spawns)
  | spec :: rest, i, combinedOutput, hasError, spawns =>
    let step := executeGoCommand spec.command workingDir spec.successMessage platform (envs i)
    let outputText := headText step.1
    let combined' :=
      (if combinedOutput = "" then combinedOutput
       else combinedOutput ++ "\n\n" ++ seqDelim ++ "\n\n") ++
      ("[" ++ spec.command ++ "]:\n" ++ outputText)
    let hasError' := hasError || step.1.isError.getD false
    seqGo platform workingDir envs rest (i + 1) combined' hasError' (spawns ++ step.2)

/-- `executeSequentialGoCommands(commands, workingDir, combinedSuccessMessage)`:
run every command in order through `executeGoCommand`, concatenate labeled
blocks, and return `combinedOutput || combinedSuccessMessage` with
`isError: hasError` (always set). -/
def executeSequentialGoCommands (commands : List CommandSpec)
    (workingDir combinedSuccessMessage : String)
    (platform : OsFamily) (envs : Nat → ExecEnv) : ToolResult × List Spawn :=
  let out := seqGo platform workingDir envs commands 0 ("") false []
  (⟨[⟨"text", jsOr out.1 combinedSuccessMessage⟩], some out.2.1⟩, out.2.2)

/-- `c` is an ASCII letter, as tested by the regex class `[a-zA-Z]`. -/
def isAsciiLetter (c : Char) : Bool :=
  ('a' ≤ c && c ≤ 'z') || ('A' ≤ c && c ≤ 'Z')

/-- `/^[a-zA-Z]:/.test(path)`. -/
def driveLetterTest (path : String) : Bool :=
  match path.data with
  | c₁ :: c₂ :: _ => isAsciiLetter c₁ && c₂ = ':'
  | _ => false

/-- `isAbsolutePath` (latest revision): a drive-letter prefix, or a leading
forward slash, or a leading backslash. -/
def isAbsolutePath (path : String) : Bool :=
  driveLetterTest path || startsWithStr path ("/") || startsWithStr path ("\\")

/-- `createWdError(wd)`: the rejection result for a non-absolute working directory. -/
def createWdError (wd : String) : ToolResult :=
  ⟨[⟨"text",
     "Error: Working directory \"" ++ wd ++
       "\" is not an absolute path. Please provide a valid absolute path."⟩],
   some true⟩

/-- The command list built by the `go_fix` handler from its flags:
`go mod tidy` (deps), `goimports -w <path>` (imports), `gofumpt -w <extraFlag> <path>`
(format), in that order. -/
def goFixCommands (path : String) (deps imports format extra : Bool) : List CommandSpec :=
  (if deps then [⟨"go mod tidy", "Dependencies cleaned up successfully"⟩] else []) ++
  (if imports then [⟨"goimports -w " ++ path, "Imports organized successfully"⟩] else []) ++
  (if format then
    [⟨"gofumpt -w " ++ (if extra then ("-extra") else ("")) ++ " " ++ path,
      "Code formatted successfully"⟩]
   else [])

/-- The `go_fix` handler: validate the working directory, build the command
list from the flags, and run it through the orchestrator. -/
def goFixHandler (wd path : String) (deps imports format extra : Bool)
    (platform : OsFamily) (envs : Nat → ExecEnv) : ToolResult × List Spawn :=
  if !isAbsolutePath wd then (createWdError wd, [])
  else
    executeSequentialGoCommands (goFixCommands path deps imports format extra)
      wd ("Code fixed successfully") platform envs

/-- The command string built by the `go_analyze` handler. -/
def goAnalyzeCommand (path : String) (config : Option String) (fast fix : Bool)
    (severity : String) : String :=
  "golangci-lint run" ++
  (match config with
   | some c => if c = "" then ("") else (" --config=") ++ c
   | none => "") ++
  (if fast then (" --fast") else ("")) ++
  (if fix then (" --fix") else ("")) ++
  (" --severity=" ++ severity) ++
  " --out-format=colored-line-number" ++
  (" " ++ path)

/-- The command string built by the enhanced `go_test` handler. -/
def goTestCommand (path : String) (coverage verbose race : Bool)
    (bench : Option String) : String :=
  "go test" ++
  (if verbose then (" -v") else ("")) ++
  (if race then (" -race") else ("")) ++
  (if coverage then (" -coverprofile=coverage.out") else ("")) ++
  (match bench with
   | some b => if b = "" then ("") else (" -bench=") ++ b ++ " -run=^$"
   | none => "") ++
  (" " ++ path)

/-- One invocation of a registered tool, with its validated-schema arguments. -/
inductive ToolCall where
  | goFindDeadCode (wd path : String)
  | goVet (wd path : String)
  | goFormat (wd path : String) (write : Bool)
  | goLint (wd path : String)
  | goTestSimple (wd path : String)
  | goModTidy (wd : String)
  | goAnalyze (wd path : String) (config : Option String) (fast fix : Bool) (severity : String)
  | goFix (wd path : String) (deps imports format extra : Bool)
  | goTestFull (wd path : String) (coverage verbose race : Bool) (bench : Option String)

/-- The working directory supplied to a tool call. -/
def ToolCall.wd : ToolCall → String
  | .goFindDeadCode wd _ => wd
  | .goVet wd _ => wd
  | .goFormat wd _ _ => wd
  | .goLint wd _ => wd
  | .goTestSimple wd _ => wd
  | .goModTidy wd => wd
  | .goAnalyze wd _ _ _ _ _ => wd
  | .goFix wd _ _ _ _ _ => wd
  | .goTestFull wd _ _ _ _ _ => wd

/-- Dispatch a tool call to its handler, mirroring the bodies registered by
`registerGoTools`: each handler first validates the working directory with
`isAbsolutePath` and returns `createWdError` (spawning nothing) on rejection,
then builds its command string(s) and delegates to `executeGoCommand` or
`executeSequentialGoCommands`. -/
def runTool (t : ToolCall) (platform : OsFamily) (envs : Nat → ExecEnv) :
    ToolResult × List Spawn :=
  match t with
  | .goFindDeadCode wd path =>
    if !isAbsolutePath wd then (createWdError wd, [])
    else executeGoCommand ("deadcode " ++ path) wd ("No dead code found") platform (envs 0)
  | .goVet wd path =>
    if !isAbsolutePath wd then (createWdError wd, [])
    else executeGoCommand ("go vet " ++ path) wd ("No issues found by go vet") platform (envs 0)
  | .goFormat wd path write =>
    if !isAbsolutePath wd then (createWdError wd, [])
    else
      executeGoCommand ("go fmt " ++ (if write then ("-w") else ("")) ++ " " ++ path) wd
        "No formatting changes needed" platform (envs 0)
  | .goLint wd path =>
    if !isAbsolutePath wd then (createWdError wd, [])
    else executeGoCommand ("golint " ++ path) wd ("No lint issues found") platform (envs 0)
  | .goTestSimple wd path =>
    if !isAbsolutePath wd then (createWdError wd, [])
    else executeGoCommand ("go test -v " ++ path) wd ("Tests passed with no output") platform (envs 0)
  | .goModTidy wd =>
    if !isAbsolutePath wd then (createWdError wd, [])
    else executeGoCommand ("go mod tidy") wd ("Dependencies cleaned up successfully") platform (envs 0)
  | .goAnalyze wd path config fast fix severity =>
    if !isAbsolutePath wd then (createWdError wd, [])
    else
      executeGoCommand (goAnalyzeCommand path config fast fix severity) wd
        "No issues found in the code" platform (envs 0)
  | .goFix wd path deps imports format extra =>
    goFixHandler wd path deps imports format extra platform envs
  | .goTestFull wd path coverage verbose race bench =>
    if !isAbsolutePath wd then (createWdError wd, [])
    else if coverage then
      executeSequentialGoCommands
        [⟨goTestCommand path coverage verbose race bench, "Tests passed with no output"⟩,
         ⟨"go tool cover -func=coverage.out", "No coverage information available"⟩]
        wd ("Tests completed successfully") platform envs
    else
      executeGoCommand (goTestCommand path coverage verbose race bench) wd
        "Tests passed with no output" platform (envs 0)

/-- The spec's wording of the path-acceptance policy: a drive-letter start
(a letter followed by a colon), a leading forward slash, or a leading backslash. -/
def isAbsolutePathSpec (path : String) : Prop :=
  (∃ c rest, path.data = c :: ':' :: rest ∧ (('a' ≤ c ∧ c ≤ 'z') ∨ ('A' ≤ c ∧ c ≤ 'Z'))) ∨
  (∃ rest, path.data = '/' :: rest) ∨
  (∃ rest, path.data = '\\' :: rest)

/-- A two-step environment in which the first command fails under both
strategies and the second succeeds synchronously. -/
def seqEnvW : Nat → ExecEnv := fun i =>
  if i = 0 then ⟨.err (.plain ("spawn failed")), .err (.withOutput ("step A failed") ("") ("exit 1"))⟩
  else ⟨.ok ("step B output") (""), .ok ("") ("")⟩

theorem strExt {s t : String} (h : s.data = t.data) : s = t := by
  cases s; cases t; exact congrArg String.mk (by simpa using h)

theorem str_eq_empty_iff (s : String) : s = "" ↔ s.data = [] := by
  constructor
  · intro h; rw [h]
  · intro h; exact strExt h

theorem append_ne_empty_left (s t : String) (h : s ≠ "") : s ++ t ≠ "" := by
  intro hc
  rw [str_eq_empty_iff, String.data_append, List.append_eq_nil] at hc
  exact h (strExt (by rw [hc.1]))

theorem str_empty_append (s : String) : "" ++ s = s := by
  cases s; exact congrArg String.mk (by simp [String.data_append])

theorem jsOr_ne_empty (a b : String) (h : b ≠ "") : jsOr a b ≠ "" := by
  unfold jsOr; split <;> assumption

theorem jsOr_of_ne (a b : String) (h : a ≠ "") : jsOr a b = a := by
  unfold jsOr; split
  · exact absurd (by assumption) h
  · rfl

theorem block_ne_empty (c t : String) : "[" ++ c ++ "]:\n" ++ t ≠ "" := by
  apply append_ne_empty_left
  intro h
  have := congrArg String.data h
  simp at this

/-- Claim C4: `isAbsolutePath` accepts a path exactly when it starts with a
drive-letter-and-colon pair, a forward slash, or a backslash; it is a pure,
total string predicate. -/
theorem validator_iff (path : String) : isAbsolutePath path = true ↔ isAbsolutePathSpec path := by
  obtain ⟨l⟩ := path
  match l with
  | [] =>
    simp [isAbsolutePath, driveLetterTest, startsWithStr, isAbsolutePathSpec]
  | [c] =>
    simp [isAbsolutePath, driveLetterTest, startsWithStr, isAbsolutePathSpec, List.take]
  | c₁ :: c₂ :: rest =>
    simp [isAbsolutePath, driveLetterTest, startsWithStr, isAbsolutePathSpec, List.take,
      isAsciiLetter, Bool.or_eq_true, Bool.and_eq_true, decide_eq_true_eq, and_comm]
    constructor
    · rintro ((⟨h2, h1⟩ | h1) | h1)
      · exact Or.inl ⟨c₁, ⟨rfl, h2⟩, h1⟩
      · exact Or.inr (Or.inl h1)
      · exact Or.inr (Or.inr h1)
    · rintro (⟨c, ⟨rfl, h2⟩, h1⟩ | h1 | h1)
      · exact Or.inl (Or.inl ⟨h2, h1⟩)
      · exact Or.inl (Or.inr h1)
      · exact Or.inr h1

/-- Claim C1, counterexample: when the synchronous execution succeeds with
empty stdout and non-empty stderr ("warn") and a non-empty success message
("done"), the result text is the success message, not the stderr the claim
requires. -/
theorem success_text_counterexample :
    (executeGoCommand ("go vet ./...") ("/a/b") ("done") .other ⟨.ok ("") ("warn"), .ok ("") ("")⟩).1 =
      ⟨[⟨"text", "done"⟩], none⟩ ∧
    ("done" : String) ≠ jsOr ("") (jsOr ("warn") ("done")) := by decide

/-- Claim C1, amended: on a zero-exit synchronous execution the text is stdout
if non-empty, else the success message (stderr is not consulted); on the
asynchronous fallback after a synchronous error, the text is stdout, else
stderr, else the success message; `isError` is unset in both cases. -/
theorem success_text_amended (cmd wd msg : String) (p : OsFamily) (env : ExecEnv) :
    (∀ so se, env.sync = .ok so se →
      (executeGoCommand cmd wd msg p env).1 = ⟨[⟨"text", jsOr so msg⟩], none⟩) ∧
    (∀ e so se, env.sync = .err e → env.async = .ok so se →
      (executeGoCommand cmd wd msg p env).1 = ⟨[⟨"text", jsOr so (jsOr se msg)⟩], none⟩) := by
  constructor
  · rintro so se h
    simp [executeGoCommand, h]
  · rintro e so se h h2
    simp [executeGoCommand, h, h2]

/-- Claim C1, witness: a synchronous success with stdout "out" returns exactly
that text with `isError` unset. -/
theorem success_text_amended_witness :
    (executeGoCommand ("go vet ./...") ("/a/b") ("ok msg") .other ⟨.ok ("out") (""), .ok ("") ("")⟩).1 =
      ⟨[⟨"text", "out"⟩], none⟩ := by
  rw [(success_text_amended ("go vet ./...") ("/a/b") ("ok msg") .other ⟨.ok ("out") (""), .ok ("") ("")⟩).1
    "out" ("") rfl]
  decide

/-- Claim C2: in a two-command sequence where the first command's execution
reports an error and the second succeeds, both commands run (both spawn lists
are concatenated), the aggregated result carries `isError = true`, and its text
is the labeled block of the first command followed by the fixed delimiter and
the labeled block of the second. -/
theorem sequence_partial_failure (A B : CommandSpec) (wd msg : String) (p : OsFamily)
    (envs : Nat → ExecEnv)
    (hA : (executeGoCommand A.command wd A.successMessage p (envs 0)).1.isError = some true)
    (hB : (executeGoCommand B.command wd B.successMessage p (envs 1)).1.isError = none) :
    (executeSequentialGoCommands [A, B] wd msg p envs).1 =
      ⟨[⟨"text",
         ("[" ++ A.command ++ "]:\n" ++
            headText (executeGoCommand A.command wd A.successMessage p (envs 0)).1) ++
         "\n\n" ++ seqDelim ++ "\n\n" ++
         ("[" ++ B.command ++ "]:\n" ++
            headText (executeGoCommand B.command wd B.successMessage p (envs 1)).1)⟩],
       some true⟩ ∧
    (executeSequentialGoCommands [A, B] wd msg p envs).2 =
      (executeGoCommand A.command wd A.successMessage p (envs 0)).2 ++
      (executeGoCommand B.command wd B.successMessage p (envs 1)).2 := by
  set rA := executeGoCommand A.command wd A.successMessage p (envs 0) with hrA
  set rB := executeGoCommand B.command wd B.successMessage p (envs 1) with hrB
  simp only [executeSequentialGoCommands, seqGo, ← hrA, ← hrB, hA, hB, Option.getD_some,
    Bool.or_true, Bool.true_or, Bool.false_or, eq_self_iff_true, if_true]
  rw [show (("" : String) ++ ("[" ++ A.command ++ "]:\n" ++ headText rA.1)) =
      "[" ++ A.command ++ "]:\n" ++ headText rA.1 from str_empty_append _]
  rw [if_neg (block_ne_empty A.command (headText rA.1))]
  have hX : ("[" ++ A.command ++ "]:\n" ++ headText rA.1 ++ "\n\n" ++ seqDelim ++ "\n\n" ++
      ("[" ++ B.command ++ "]:\n" ++ headText rB.1)) ≠ "" := by
    repeat apply append_ne_empty_left
    decide
  rw [jsOr_of_ne _ _ hX]
  simp

/-- Claim C2, witness: a concrete failing-then-succeeding sequence reports an
aggregated error. -/
theorem sequence_partial_failure_witness :
    (executeSequentialGoCommands [⟨"gofmt -l .", "A ok"⟩, ⟨"go vet ./...", "B ok"⟩] "/w/d"
        "all good" .other seqEnvW).1.isError = some true := by
  have h := sequence_partial_failure ⟨"gofmt -l .", "A ok"⟩ ⟨"go vet ./...", "B ok"⟩ ("/w/d")
    "all good" .other seqEnvW (by decide) (by decide)
  rw [h.1]

/-- Claim C3: whenever the working directory fails the absoluteness predicate,
every registered tool operation returns the `createWdError` result — whose text
names the offending path and whose `isError` is true — and spawns no process. -/
theorem wd_rejection (t : ToolCall) (p : OsFamily) (envs : Nat → ExecEnv)
    (h : isAbsolutePath t.wd = false) :
    runTool t p envs = (createWdError t.wd, []) ∧
    (runTool t p envs).1.isError = some true ∧
    ∃ pre suf, headText (runTool t p envs).1 = pre ++ t.wd ++ suf := by
  have hrun : runTool t p envs = (createWdError t.wd, []) := by
    cases t <;> simp_all [runTool, ToolCall.wd, goFixHandler]
  refine ⟨hrun, ?_, ?_⟩
  · rw [hrun]
    rfl
  · rw [hrun]
    exact ⟨"Error: Working directory \"",
      "\" is not an absolute path. Please provide a valid absolute path.", rfl⟩

/-- Claim C3, witness: `go_vet` with the relative working directory
"relative/path" is rejected without any spawn. -/
theorem wd_rejection_witness :
    isAbsolutePath ("relative/path") = false ∧
    runTool (.goVet ("relative/path") ("./...")) .other (fun _ => ⟨.ok ("") (""), .ok ("") ("")⟩) =
      (createWdError ("relative/path"), []) :=
  ⟨by decide,
   (wd_rejection (.goVet ("relative/path") ("./...")) .other (fun _ => ⟨.ok ("") (""), .ok ("") ("")⟩)
      (by decide)).1⟩

/-- Claim C5: when both the synchronous attempt and the asynchronous fallback
raise, `executeGoCommand` still returns (it is a total function) a result with
`isError = true` and non-empty text, and if the async error carries non-empty
captured stdout/stderr the text is exactly that captured output. -/
theorem executor_failure (cmd wd msg : String) (p : OsFamily) (env : ExecEnv)
    (es ea : JsError) (hs : env.sync = .err es) (ha : env.async = .err ea) :
    (executeGoCommand cmd wd msg p env).1.isError = some true ∧
    headText (executeGoCommand cmd wd msg p env).1 ≠ "" ∧
    (∀ so se m, ea = .withOutput so se m → jsOr so se ≠ "" →
      headText (executeGoCommand cmd wd msg p env).1 = jsOr so se) := by
  refine ⟨?_, ?_, ?_⟩
  · simp [executeGoCommand, hs, ha]
  · simp only [executeGoCommand, hs, ha, headText]
    apply jsOr_ne_empty
    apply append_ne_empty_left
    decide
  · rintro so se m rfl hne
    simp only [executeGoCommand, hs, ha, headText]
    simp [jsOr_of_ne _ _ hne]

/-- Claim C5, witness: a double failure with captured stdout yields an error
result carrying that output. -/
theorem executor_failure_witness :
    (executeGoCommand ("go build") ("/a/b") ("m") .other
        ⟨.err (.plain ("sync boom")), .err (.withOutput ("compile error output") ("") ("exit 2"))⟩).1.isError
      = some true ∧
    headText (executeGoCommand ("go build") ("/a/b") ("m") .other
        ⟨.err (.plain ("sync boom")), .err (.withOutput ("compile error output") ("") ("exit 2"))⟩).1
      = "compile error output" := by
  have h := executor_failure ("go build") ("/a/b") ("m") .other
    ⟨.err (.plain ("sync boom")), .err (.withOutput ("compile error output") ("") ("exit 2"))⟩
    (.plain ("sync boom")) (.withOutput ("compile error output") ("") ("exit 2")) rfl rfl
  refine ⟨h.1, ?_⟩
  rw [h.2.2 ("compile error output") ("") ("exit 2") rfl (by decide)]
  decide

/-- Claim C6: each call spawns the synchronous process first, on the rewritten
command; exactly when that attempt raises, exactly one asynchronous process is
spawned with the same command string — one spawn on synchronous success, two
otherwise, never more. -/
theorem spawn_policy (cmd wd msg : String) (p : OsFamily) (env : ExecEnv) :
    (executeGoCommand cmd wd msg p env).2 =
      match env.sync with
      | .ok _ _ => [⟨.sync, mkFinalCommand p cmd wd, cwdOption p wd⟩]
      | .err _ => [⟨.sync, mkFinalCommand p cmd wd, cwdOption p wd⟩,
                   ⟨.async, mkFinalCommand p cmd wd, cwdOption p wd⟩] := by
  cases h : env.sync <;> cases h2 : env.async <;> simp [executeGoCommand, h, h2]

/-- Claim C7, counterexample: on win32 a drive-relative path with letter "t"
is not rewritten to drive-letter form — it is folded verbatim into the standard
`cd /d "<path>"` shape, not the `cd /d t:` shape the claim requires for every
letter. -/
theorem drive_rewrite_counterexample :
    mkFinalCommand .win32 ("go test") ("\\t\\Projects\\x") =
      "cd /d \"\\t\\Projects\\x\" && go test" ∧
    mkFinalCommand .win32 ("go test") ("\\t\\Projects\\x") ≠
      "cd /d t: && cd \"t:\\Projects\\x\" && go test" := by decide

/-- Claim C7, amended: only the specific letter "s" is handled — on win32 a
working directory whose slash-translated form starts with `\s\` is rewritten to
`s:\rest` and folded as `cd /d s: && cd "s:\rest" && <command>`. -/
theorem drive_rewrite_amended (cmd wd : String)
    (h : startsWithStr (toBackslashes wd) ("\\s\\") = true) :
    mkFinalCommand .win32 cmd wd =
      "cd /d s: && cd \"s:\\" ++ dropStr (toBackslashes wd) 3 ++ "\" && " ++ cmd := by
  have hfc : firstCharStr ("s:\\" ++ dropStr (toBackslashes wd) 3) = "s" := by
    apply strExt
    have : ("s:\\" : String).data = ['s', ':', '\\'] := rfl
    simp [firstCharStr, String.data_append, this]
  have hlen : ("\\s\\" : String).data.length = 3 := rfl
  simp only [mkFinalCommand, replaceAnchored, h, if_true, hlen, hfc]
  apply strExt
  simp [String.data_append, List.append_assoc]

/-- Claim C7, witness: "/s/Projects/x" is rewritten so the command targets
drive s: and directory \Projects\x. -/
theorem drive_rewrite_witness :
    mkFinalCommand .win32 ("go vet ./...") ("/s/Projects/x") =
      "cd /d s: && cd \"s:\\Projects\\x\" && go vet ./..." := by
  rw [drive_rewrite_amended ("go vet ./...") ("/s/Projects/x") (by decide)]
  decide

/-- Claim C8, counterexample: on the empty command list the orchestrator does
return `text = msg`, but `isError` is present and false, not unset as claimed. -/
theorem empty_sequence_counterexample :
    (executeSequentialGoCommands [] "/a/b" ("All done") .other
        (fun _ => ⟨.ok ("") (""), .ok ("") ("")⟩)).1.isError = some false ∧
    headText (executeSequentialGoCommands [] "/a/b" ("All done") .other
        (fun _ => ⟨.ok ("") (""), .ok ("") ("")⟩)).1 = "All done" ∧
    (some false : Option Bool) ≠ none := by decide

/-- Claim C8, amended: for every working directory and message, the empty
sequence yields `text = msg` with `isError` explicitly set to false, and no
spawned process. -/
theorem empty_sequence_amended (wd msg : String) (p : OsFamily) (envs : Nat → ExecEnv) :
    executeSequentialGoCommands [] wd msg p envs = (⟨[⟨"text", msg⟩], some false⟩, []) := by
  simp [executeSequentialGoCommands, seqGo, jsOr]

/-- Claim C9: with a non-empty success message, neither `executeGoCommand` nor
`executeSequentialGoCommands` ever returns an empty text: silent success falls
back to the success message and failure text always carries output or a
synthesized description. -/
theorem text_never_empty (cmd wd msg : String) (p : OsFamily) (env : ExecEnv)
    (commands : List CommandSpec) (envs : Nat → ExecEnv) (hm : msg ≠ "") :
    headText (executeGoCommand cmd wd msg p env).1 ≠ "" ∧
    headText (executeSequentialGoCommands commands wd msg p envs).1 ≠ "" := by
  constructor
  · cases h : env.sync with
    | ok so se =>
      simp only [executeGoCommand, h, headText, List.headD]
      exact jsOr_ne_empty _ _ hm
    | err e =>
      cases h2 : env.async with
      | ok so se =>
        simp only [executeGoCommand, h, h2, headText, List.headD]
        exact jsOr_ne_empty _ _ (jsOr_ne_empty _ _ hm)
      | err e2 =>
        simp only [executeGoCommand, h, h2, headText, List.headD]
        exact jsOr_ne_empty _ _ (append_ne_empty_left _ _ (by decide))
  · simp only [executeSequentialGoCommands, headText, List.headD]
    exact jsOr_ne_empty _ _ hm

/-- Claim C9, witness: a silent success with the non-empty message
"Tests passed with no output" yields non-empty text. -/
theorem text_never_empty_witness :
    ("Tests passed with no output" : String) ≠ "" ∧
    headText (executeGoCommand ("go test -v ./...") ("/a/b") ("Tests passed with no output") .other
      ⟨.ok ("") (""), .ok ("") ("")⟩).1 ≠ "" :=
  ⟨by decide,
   (text_never_empty ("go test -v ./...") ("/a/b") ("Tests passed with no output") .other
      ⟨.ok ("") (""), .ok ("") ("")⟩ [] (fun _ => ⟨.ok ("") (""), .ok ("") ("")⟩) (by decide)).1⟩

/-- Claim C10: `go_fix` with deps, imports and format all disabled and an
absolute working directory builds the empty command sequence, spawns nothing,
and returns "Code fixed successfully" with `isError` explicitly false. -/
theorem go_fix_all_disabled (wd path : String) (extra : Bool) (p : OsFamily)
    (envs : Nat → ExecEnv) (h : isAbsolutePath wd = true) :
    runTool (.goFix wd path false false false extra) p envs =
      (⟨[⟨"text", "Code fixed successfully"⟩], some false⟩, []) := by
  simp [runTool, goFixHandler, h, goFixCommands, executeSequentialGoCommands, seqGo, jsOr]

/-- Claim C10, witness: the concrete absolute directory "/test/project". -/
theorem go_fix_all_disabled_witness :
    isAbsolutePath ("/test/project") = true ∧
    runTool (.goFix ("/test/project") ("./...") false false false false) .other
        (fun _ => ⟨.ok ("") (""), .ok ("") ("")⟩) =
      (⟨[⟨"text", "Code fixed successfully"⟩], some false⟩, []) :=
  ⟨by decide,
   go_fix_all_disabled ("/test/project") ("./...") false .other (fun _ => ⟨.ok ("") (""), .ok ("") ("")⟩)
     (by decide)⟩
